import Mathlib

/-!
Shallow embedding of `src/query-sso-admin-access.ts`, the AWS SSO access
assignment report builder, together with theorems checking the repository's
specification against the code.

The remote AWS services are modelled as oracles packaged in an `Env`
structure: each remote operation is a pure function from its arguments (and,
for retried operations, the 0-indexed attempt number) to an `Except` outcome.
JavaScript `Map`s become association lists with `Map.set` overwrite
semantics, errors become an `AwsError` record carrying `name`, `message` and
the optional HTTP status code, and JavaScript truthiness tests on optional
strings (`response.UserName || userId`, `!assignment.PrincipalId`) are
modelled explicitly: `none` and `some ""` are both falsy.
-/

/-! ## Configuration constants (source lines 37-44) -/

def CONCURRENCY_LIMIT : Nat := 10

def MAX_RETRIES : Nat := 5

def INITIAL_RETRY_DELAY : Nat := 1000

def OUTPUT_FILE : String := "sso-assignments.csv"

/-! ## Errors and JavaScript truthiness -/

/-- A JavaScript error as the source inspects it: `error.name`,
`error.message` and `error.$metadata?.httpStatusCode`. -/
structure AwsError where
  name : String
  message : String
  httpStatusCode : Option Nat
deriving Repr, DecidableEq

/-- The rate-limit classification of source lines 75-78. -/
def isRateLimitError (e : AwsError) : Bool :=
  e.name == "TooManyRequestsException" ||
  e.name == "ThrottlingException" ||
  e.httpStatusCode == some 429

/-- JavaScript `o || d` for an optional string `o`: `none` and the empty
string are falsy. -/
def jsOr (o : Option String) (d : String) : String :=
  match o with
  | some s => if s = "" then d else s
  | none => d

/-- JavaScript truthiness of an optional string: `none` and `some ""` are
falsy. -/
def jsTruthy (o : Option String) : Bool :=
  match o with
  | some s => s ≠ ""
  | none => false

/-! ## Retry governor (source lines 66-104, `retryWithBackoff`)

The wrapped operation is modelled as a function from the 0-indexed attempt
number to an outcome, and `Math.random() * 1000` as a `jitter` function from
the attempt number to a natural number of milliseconds.  The result records
the outcome, the number of invocations of the operation, the backoff delays
slept, and the retry log messages emitted through the global logger. -/

structure RetryResult (α : Type) where
  result : Except AwsError α
  invocations : Nat
  delays : List Nat
  logs : List String
deriving Repr

/-- The retry warning message of source lines 91-93 (`Math.round(delay/1000)`
is modelled as rounding half up on naturals). -/
def retryLogMessage (operationName : String) (delay : Nat) (attempt : Nat)
    (retries : Nat) : String :=
  "Rate limit: " ++ operationName ++ ". Retry in " ++
    toString ((delay + 500) / 1000) ++ "s (" ++ toString (attempt + 1) ++
    "/" ++ toString retries ++ ")"

/-- The `new Error` thrown at source line 103 after the `for` loop; its
message names the retry count but not the operation. -/
def failedAfterError (retries : Nat) : AwsError :=
  ⟨"Error", "Failed after " ++ toString retries ++ " retries", none⟩

/-- One pass of the `for (let attempt = 0; attempt <= retries; attempt++)`
loop of source lines 71-101.  `fuel` is the number of loop iterations still
permitted; the top level supplies `retries + 1`, exactly the number of
iterations the JavaScript loop can perform, so the fuel-exhausted branch is
the fall-through to line 103. -/
def retryLoop {α : Type} (op : Nat → Except AwsError α) (jitter : Nat → Nat)
    (operationName : String) (retries : Nat) :
    Nat → Nat → RetryResult α
  | _attempt, 0 => ⟨Except.error (failedAfterError retries), 0, [], []⟩
  | attempt, fuel + 1 =>
    match op attempt with
    | Except.ok v => ⟨Except.ok v, 1, [], []⟩
    | Except.error e =>
      if isRateLimitError e = false ∨ attempt = retries then
        ⟨Except.error e, 1, [], []⟩
      else
        let delay := INITIAL_RETRY_DELAY * 2 ^ attempt + jitter attempt
        let r := retryLoop op jitter operationName retries (attempt + 1) fuel
        ⟨r.result, r.invocations + 1, delay :: r.delays,
          retryLogMessage operationName delay attempt retries :: r.logs⟩

/-- `retryWithBackoff(operation, operationName, retries)` of source
lines 66-104. -/
def retryWithBackoff {α : Type} (op : Nat → Except AwsError α)
    (jitter : Nat → Nat) (operationName : String) (retries : Nat) :
    RetryResult α :=
  retryLoop op jitter operationName retries 0 (retries + 1)

/-! Basic facts about the retry loop. -/

theorem retryLoop_invocations_le {α : Type} (op : Nat → Except AwsError α)
    (jitter : Nat → Nat) (name : String) (retries : Nat) :
    ∀ attempt fuel,
      (retryLoop op jitter name retries attempt fuel).invocations ≤ fuel := by
  intro attempt fuel
  induction fuel generalizing attempt with
  | zero => simp [retryLoop]
  | succ n ih =>
    simp only [retryLoop]
    cases h : op attempt with
    | ok v => simp
    | error e =>
      by_cases hc : isRateLimitError e = false ∨ attempt = retries
      · simp [hc]
      · simp only [hc, if_false]
        exact Nat.succ_le_succ (ih (attempt + 1))

theorem retryLoop_delays_eq {α : Type} (op : Nat → Except AwsError α)
    (jitter : Nat → Nat) (name : String) (retries : Nat) :
    ∀ attempt fuel,
      (retryLoop op jitter name retries attempt fuel).delays =
        (List.range' attempt
            (retryLoop op jitter name retries attempt fuel).delays.length).map
          (fun k => INITIAL_RETRY_DELAY * 2 ^ k + jitter k) := by
  intro attempt fuel
  induction fuel generalizing attempt with
  | zero => simp [retryLoop]
  | succ n ih =>
    simp only [retryLoop]
    cases hop : op attempt with
    | ok v => simp
    | error e =>
      by_cases hc : isRateLimitError e = false ∨ attempt = retries
      · simp [hc]
      · simp only [hc, if_false]
        simp only [List.length_cons, List.range'_succ, List.map_cons,
          List.cons.injEq, true_and]
        exact ih (attempt + 1)

/-- A first-attempt error that is not rate-limit classified is rethrown at
once: one invocation, no delays, no logs. -/
theorem retryLoop_nonRateLimit {α : Type} (op : Nat → Except AwsError α)
    (jitter : Nat → Nat) (name : String) (retries : Nat)
    (e : AwsError) (he : op 0 = Except.error e)
    (hrl : isRateLimitError e = false) :
    retryWithBackoff op jitter name retries =
      ⟨Except.error e, 1, [], []⟩ := by
  simp [retryWithBackoff, retryLoop, he, hrl]

/-- A first-attempt success returns at once. -/
theorem retryLoop_ok {α : Type} (op : Nat → Except AwsError α)
    (jitter : Nat → Nat) (name : String) (retries : Nat)
    (v : α) (hv : op 0 = Except.ok v) :
    retryWithBackoff op jitter name retries = ⟨Except.ok v, 1, [], []⟩ := by
  simp [retryWithBackoff, retryLoop, hv]

/-! ## Association lists with `Map.set` semantics (source lines 57-60)

The three module-level caches `userCache`, `groupCache` and
`groupMembersCache` are JavaScript `Map`s.  An association list with
first-match lookup and overwrite-or-append insertion models them exactly. -/

def alookup {α : Type} : List (String × α) → String → Option α
  | [], _ => none
  | (k, v) :: rest, key => if key = k then some v else alookup rest key

def aset {α : Type} (m : List (String × α)) (key : String) (v : α) :
    List (String × α) :=
  match m with
  | [] => [(key, v)]
  | (k, w) :: rest =>
    if k = key then (k, v) :: rest else (k, w) :: aset rest key v

theorem alookup_aset {α : Type} (m : List (String × α)) (key k : String)
    (v : α) :
    alookup (aset m key v) k = if k = key then some v else alookup m k := by
  induction m with
  | nil => by_cases h : k = key <;> simp [aset, alookup, h]
  | cons p rest ih =>
    obtain ⟨k', w⟩ := p
    by_cases h1 : k' = key
    · subst h1
      by_cases h2 : k = k'
      · subst h2
        simp [aset, alookup]
      · simp [aset, alookup, h2]
    · by_cases h2 : k = k'
      · subst h2
        simp [aset, h1, alookup, h1]
      · simp [aset, h1, alookup, h2, ih]

/-- State of the three caches of source lines 57-60. -/
structure CacheState where
  userCache : List (String × String)
  groupCache : List (String × String)
  groupMembersCache : List (String × List String)
deriving Repr, DecidableEq

def CacheState.empty : CacheState := ⟨[], [], []⟩

/-! ## The remote service environment

Each remote operation that the source wraps in `retryWithBackoff` is an
oracle from its arguments and the attempt number to an outcome.  The
`ListGroupMemberships` pages are also attempt-indexed so that the behaviour
the source would have had under retry wrapping can be compared with the
behaviour it actually has (it issues each page request once, with no
wrapping).  `describeUser` returns `response.UserName`, `describeGroup`
returns `response.DisplayName`, and a group-membership page returns the
`MemberId?.UserId` of each membership record, each an optional string. -/

/-- One element of `response.AccountAssignments`: `PrincipalId` and
`PrincipalType` are both optional strings in the SDK. -/
structure AssignmentRef where
  principalId : Option String
  principalType : Option String
deriving Repr, DecidableEq

structure Env where
  jitter : Nat → Nat
  describeUser : String → Nat → Except AwsError (Option String)
  describeGroup : String → Nat → Except AwsError (Option String)
  groupPages : String → List (Nat → Except AwsError (List (Option String)))
  assignmentPages :
    String → String → List (Nat → Except AwsError (List AssignmentRef))

/-- Result of one cache-aware resolution: the value, the updated caches, and
the number of remote operations issued (0 on a cache hit). -/
structure Resolved (α : Type) where
  value : α
  state : CacheState
  remoteCalls : Nat
deriving Repr

/-! ## `getUserName` (source lines 186-224) -/

/-- The tombstone written for a user the service reports as not found. -/
def deletedUserTombstone (userId : String) : String :=
  "[Deleted User: " ++ userId ++ "]"

/-- The tombstone written for a group the service reports as not found. -/
def deletedGroupTombstone (groupId : String) : String :=
  "[Deleted Group: " ++ groupId ++ "]"

/-- `getUserName` of source lines 186-224: cache hit returns synchronously;
on a miss the `DescribeUser` call goes through `retryWithBackoff`; a success
caches `response.UserName || userId`; ANY error is caught, producing the
tombstone for `ResourceNotFoundException` and the raw id otherwise, and the
result is cached and returned in both cases. -/
def getUserName (env : Env) (s : CacheState) (userId : String) :
    Resolved String :=
  match alookup s.userCache userId with
  | some v => ⟨v, s, 0⟩
  | none =>
    match (retryWithBackoff (env.describeUser userId) env.jitter
        ("DescribeUser(" ++ userId ++ ")") MAX_RETRIES).result with
    | Except.ok nameOpt =>
      let userName := jsOr nameOpt userId
      ⟨userName, { s with userCache := aset s.userCache userId userName }, 1⟩
    | Except.error e =>
      let result :=
        if e.name = "ResourceNotFoundException" then deletedUserTombstone userId
        else userId
      ⟨result, { s with userCache := aset s.userCache userId result }, 1⟩

/-! ## `getGroupName` (source lines 226-264) -/

/-- `getGroupName` of source lines 226-264, structurally identical to
`getUserName` with `DisplayName` and the group tombstone. -/
def getGroupName (env : Env) (s : CacheState) (groupId : String) :
    Resolved String :=
  match alookup s.groupCache groupId with
  | some v => ⟨v, s, 0⟩
  | none =>
    match (retryWithBackoff (env.describeGroup groupId) env.jitter
        ("DescribeGroup(" ++ groupId ++ ")") MAX_RETRIES).result with
    | Except.ok nameOpt =>
      let groupName := jsOr nameOpt groupId
      ⟨groupName, { s with groupCache := aset s.groupCache groupId groupName },
        1⟩
    | Except.error e =>
      let result :=
        if e.name = "ResourceNotFoundException" then
          deletedGroupTombstone groupId
        else groupId
      ⟨result, { s with groupCache := aset s.groupCache groupId result }, 1⟩

/-! ## `getGroupMembers` (source lines 266-308)

The pagination loop issues each `ListGroupMembershipsCommand` directly —
NOT through `retryWithBackoff` — so each page oracle is consulted at
attempt 0 only.  The `try`/`catch` wraps the whole loop: on any error the
members accumulated from earlier pages are kept, and the accumulated list is
cached and returned unconditionally after the `try`/`catch`. -/

/-- Accumulate member user ids across pages as the source's `do`/`while`
loop does, stopping at the first failing page and keeping what was
accumulated before it (the `catch` absorbs the error). -/
def collectMembers : List (Nat → Except AwsError (List (Option String))) →
    List String
  | [] => []
  | page :: rest =>
    match page 0 with
    | Except.ok memberships =>
      memberships.filterMap id ++ collectMembers rest
    | Except.error _ => []

/-- Number of page requests the loop issues (each consulted once, at
attempt 0). -/
def pagesConsumed : List (Nat → Except AwsError (List (Option String))) → Nat
  | [] => 0
  | page :: rest =>
    match page 0 with
    | Except.ok _ => 1 + pagesConsumed rest
    | Except.error _ => 1

/-- The member list of a group as the source computes it on a cache miss. -/
def memberList (env : Env) (groupId : String) : List String :=
  collectMembers (env.groupPages groupId)

/-- `getGroupMembers` of source lines 266-308. -/
def getGroupMembers (env : Env) (s : CacheState) (groupId : String) :
    Resolved (List String) :=
  match alookup s.groupMembersCache groupId with
  | some ms => ⟨ms, s, 0⟩
  | none =>
    let members := memberList env groupId
    ⟨members,
      { s with groupMembersCache := aset s.groupMembersCache groupId members },
      pagesConsumed (env.groupPages groupId)⟩

/-! ## `getAssignments` (source lines 310-391) -/

/-- An output row (`AdminAssignment` interface, source lines 48-55).  Inside
`getAssignments` the `accountName` field is always the empty string; `main`
overwrites it later (source lines 566-568). -/
structure AdminAssignment where
  accountNumber : String
  accountName : String
  username : String
  permissionSetName : String
  assignmentType : String
  groupName : Option String
deriving Repr, DecidableEq

/-- The rows emitted for the members of one GROUP assignment (source
lines 367-382): one row per member id, each carrying the group's resolved
name, with the member's name resolved through the user cache. -/
def memberRows (env : Env) (accountId psName groupName : String) :
    CacheState → List String → List AdminAssignment × CacheState
  | s, [] => ([], s)
  | s, mid :: rest =>
    let r := getUserName env s mid
    let (rows, s2) := memberRows env accountId psName groupName r.state rest
    (⟨accountId, "", r.value, psName, "GROUP", some groupName⟩ :: rows, s2)

/-- The body of the `for (const assignment of response.AccountAssignments)`
loop (source lines 337-384).  A reference whose `PrincipalId` or
`PrincipalType` is falsy (`undefined` or the empty string) is skipped by the
`continue` at line 338; a `PrincipalType` other than `"USER"` and `"GROUP"`
falls through both branches and produces nothing. -/
def processRefs (env : Env) (accountId psName : String) :
    CacheState → List AssignmentRef → List AdminAssignment × CacheState
  | s, [] => ([], s)
  | s, ref :: rest =>
    match ref.principalId, ref.principalType with
    | some pid, some ptype =>
      if pid = "" ∨ ptype = "" then processRefs env accountId psName s rest
      else if ptype = "USER" then
        let r := getUserName env s pid
        let (rows, s2) := processRefs env accountId psName r.state rest
        (⟨accountId, "", r.value, psName, "USER", none⟩ :: rows, s2)
      else if ptype = "GROUP" then
        let rg := getGroupName env s pid
        let rm := getGroupMembers env rg.state pid
        let (grows, s3) :=
          memberRows env accountId psName rg.value rm.state rm.value
        let (rows, s4) := processRefs env accountId psName s3 rest
        (grows ++ rows, s4)
      else processRefs env accountId psName s rest
    | _, _ => processRefs env accountId psName s rest

/-- The outcome of one retry-wrapped `ListAccountAssignments` page request
(source lines 323-334). -/
def pageRetry (env : Env) (accountId : String)
    (page : Nat → Except AwsError (List AssignmentRef)) :
    Except AwsError (List AssignmentRef) :=
  (retryWithBackoff page env.jitter
    ("ListAccountAssignments(" ++ accountId ++ ")") MAX_RETRIES).result

/-- The reference list a successful page yields (`[]` when the page fails:
only used under an all-pages-succeed hypothesis). -/
def pageRefs (env : Env) (accountId : String)
    (page : Nat → Except AwsError (List AssignmentRef)) :
    List AssignmentRef :=
  match pageRetry env accountId page with
  | Except.ok refs => refs
  | Except.error _ => []

/-- The `do`/`while` pagination loop of `getAssignments` (source
lines 322-388): each page request goes through `retryWithBackoff`; an error
propagates out of `getAssignments`, discarding the rows accumulated so
far. -/
def getAssignmentsLoop (env : Env) (accountId psName : String) :
    CacheState → List (Nat → Except AwsError (List AssignmentRef)) →
    Except AwsError (List AdminAssignment) × CacheState
  | s, [] => (Except.ok [], s)
  | s, page :: rest =>
    match pageRetry env accountId page with
    | Except.error e => (Except.error e, s)
    | Except.ok refs =>
      let (rows, s1) := processRefs env accountId psName s refs
      match getAssignmentsLoop env accountId psName s1 rest with
      | (Except.ok more, s2) => (Except.ok (rows ++ more), s2)
      | (Except.error e, s2) => (Except.error e, s2)

/-- `getAssignments` of source lines 310-391. -/
def getAssignments (env : Env) (s : CacheState)
    (accountId psArn psName : String) :
    Except AwsError (List AdminAssignment) × CacheState :=
  getAssignmentsLoop env accountId psName s (env.assignmentPages accountId psArn)

/-! ## Row counting

`directUserCount` and `groupMemberSum` state the specification's counting
formula; `MembersConsistent` says every cached member list agrees with what
the service would return, which holds of the empty initial caches and is
preserved by every operation. -/

/-- Whether a reference passes the line-338 guard. -/
def refTruthy (ref : AssignmentRef) : Bool :=
  jsTruthy ref.principalId && jsTruthy ref.principalType

/-- Number of direct USER assignment references (those that pass the guard
with type `"USER"`). -/
def directUserCount (refs : List AssignmentRef) : Nat :=
  (refs.filter
    (fun r => refTruthy r && r.principalType == some "USER")).length

/-- Sum of resolved member counts over the GROUP assignment references that
pass the guard. -/
def groupMemberSum (env : Env) (refs : List AssignmentRef) : Nat :=
  (refs.map (fun r =>
    if refTruthy r && r.principalType == some "GROUP" then
      (memberList env (r.principalId.getD "")).length
    else 0)).sum

/-- Every cached member list equals the list the service yields for that
group. -/
def MembersConsistent (env : Env) (s : CacheState) : Prop :=
  ∀ g ms, alookup s.groupMembersCache g = some ms → ms = memberList env g

/-! Cache-footprint lemmas: each resolution function touches only its own
cache. -/

theorem getUserName_groupMembersCache (env : Env) (s : CacheState)
    (userId : String) :
    (getUserName env s userId).state.groupMembersCache =
      s.groupMembersCache := by
  unfold getUserName
  cases alookup s.userCache userId with
  | some v => rfl
  | none =>
    cases (retryWithBackoff (env.describeUser userId) env.jitter
        ("DescribeUser(" ++ userId ++ ")") MAX_RETRIES).result with
    | ok v => rfl
    | error e => rfl

theorem getGroupName_groupMembersCache (env : Env) (s : CacheState)
    (groupId : String) :
    (getGroupName env s groupId).state.groupMembersCache =
      s.groupMembersCache := by
  unfold getGroupName
  cases alookup s.groupCache groupId with
  | some v => rfl
  | none =>
    cases (retryWithBackoff (env.describeGroup groupId) env.jitter
        ("DescribeGroup(" ++ groupId ++ ")") MAX_RETRIES).result with
    | ok v => rfl
    | error e => rfl

/-- On a consistent state `getGroupMembers` returns exactly the service's
member list for the group, and consistency is preserved. -/
theorem getGroupMembers_value (env : Env) (s : CacheState) (groupId : String)
    (hc : MembersConsistent env s) :
    (getGroupMembers env s groupId).value = memberList env groupId := by
  unfold getGroupMembers
  cases h : alookup s.groupMembersCache groupId with
  | some ms => exact hc groupId ms h
  | none => rfl

theorem getGroupMembers_consistent (env : Env) (s : CacheState)
    (groupId : String) (hc : MembersConsistent env s) :
    MembersConsistent env (getGroupMembers env s groupId).state := by
  unfold getGroupMembers
  cases h : alookup s.groupMembersCache groupId with
  | some ms => exact hc
  | none =>
    intro g ms hg
    simp only at hg
    rw [alookup_aset] at hg
    by_cases hgk : g = groupId
    · subst hgk
      simp at hg
      exact hg.symm
    · rw [if_neg hgk] at hg
      exact hc g ms hg

theorem memberRows_groupMembersCache (env : Env)
    (accountId psName groupName : String) :
    ∀ (s : CacheState) (members : List String),
      (memberRows env accountId psName groupName s members).2.groupMembersCache
        = s.groupMembersCache := by
  intro s members
  induction members generalizing s with
  | nil => rfl
  | cons mid rest ih =>
    simp only [memberRows]
    rw [ih]
    exact getUserName_groupMembersCache env s mid

theorem memberRows_length (env : Env)
    (accountId psName groupName : String) :
    ∀ (s : CacheState) (members : List String),
      (memberRows env accountId psName groupName s members).1.length =
        members.length := by
  intro s members
  induction members generalizing s with
  | nil => rfl
  | cons mid rest ih =>
    simp only [memberRows, List.length_cons]
    rw [ih]

theorem MembersConsistent_of_eq (env : Env) {s s' : CacheState}
    (h : s'.groupMembersCache = s.groupMembersCache)
    (hc : MembersConsistent env s) : MembersConsistent env s' := by
  intro g ms hg
  exact hc g ms (h ▸ hg)

theorem directUserCount_cons (r : AssignmentRef)
    (rest : List AssignmentRef) :
    directUserCount (r :: rest) =
      (if (refTruthy r && r.principalType == some "USER") = true then 1
        else 0) + directUserCount rest := by
  simp only [directUserCount, List.filter_cons]
  by_cases h : (refTruthy r && r.principalType == some "USER") = true
  · simp [h, Nat.add_comm]
  · simp [h]

theorem groupMemberSum_cons (env : Env) (r : AssignmentRef)
    (rest : List AssignmentRef) :
    groupMemberSum env (r :: rest) =
      (if (refTruthy r && r.principalType == some "GROUP") = true then
        (memberList env (r.principalId.getD "")).length
      else 0) + groupMemberSum env rest := by
  simp only [groupMemberSum, List.map_cons, List.sum_cons]

theorem memberRows_consistent (env : Env)
    (accountId psName groupName : String) (s : CacheState)
    (members : List String) (hc : MembersConsistent env s) :
    MembersConsistent env
      (memberRows env accountId psName groupName s members).2 :=
  MembersConsistent_of_eq env
    (memberRows_groupMembersCache env accountId psName groupName s members) hc

/-- Each reference contributes exactly its specified number of rows, and the
member-cache consistency invariant is preserved. -/
theorem processRefs_spec (env : Env) (accountId psName : String) :
    ∀ (s : CacheState) (refs : List AssignmentRef),
      MembersConsistent env s →
      (processRefs env accountId psName s refs).1.length =
          directUserCount refs + groupMemberSum env refs ∧
        MembersConsistent env (processRefs env accountId psName s refs).2 := by
  intro s refs
  induction refs generalizing s with
  | nil =>
    intro hc
    exact ⟨rfl, hc⟩
  | cons ref rest ih =>
    intro hc
    obtain ⟨pidO, ptypeO⟩ := ref
    cases pidO with
    | none =>
      cases ptypeO with
      | none =>
        simp only [processRefs, directUserCount_cons, groupMemberSum_cons,
          refTruthy, jsTruthy]
        simpa using ih s hc
      | some ptype =>
        simp only [processRefs, directUserCount_cons, groupMemberSum_cons,
          refTruthy, jsTruthy]
        simpa using ih s hc
    | some pid =>
      cases ptypeO with
      | none =>
        simp only [processRefs, directUserCount_cons, groupMemberSum_cons,
          refTruthy, jsTruthy]
        simpa using ih s hc
      | some ptype =>
        by_cases hskip : pid = "" ∨ ptype = ""
        · have hval : (refTruthy ⟨some pid, some ptype⟩) = false := by
            rcases hskip with h | h <;>
              simp [refTruthy, jsTruthy, h]
          simp only [processRefs, hskip, if_true, directUserCount_cons,
            groupMemberSum_cons, hval]
          simpa using ih s hc
        · by_cases huser : ptype = "USER"
          · subst huser
            have hval : (refTruthy ⟨some pid, some "USER"⟩) = true := by
              push_neg at hskip
              simp [refTruthy, jsTruthy, hskip.1]
            simp only [processRefs, hskip, if_false, if_true, reduceIte]
            have hrec := ih (getUserName env s pid).state
              (MembersConsistent_of_eq env
                (getUserName_groupMembersCache env s pid) hc)
            simp only [directUserCount_cons, groupMemberSum_cons, hval]
            constructor
            · simp only [List.length_cons, hrec.1]
              simp
              omega
            · exact hrec.2
          · by_cases hgroup : ptype = "GROUP"
            · subst hgroup
              have hval : (refTruthy ⟨some pid, some "GROUP"⟩) = true := by
                push_neg at hskip
                simp [refTruthy, jsTruthy, hskip.1]
              simp only [processRefs, hskip, if_false, reduceIte]
              have hc1 : MembersConsistent env (getGroupName env s pid).state :=
                MembersConsistent_of_eq env
                  (getGroupName_groupMembersCache env s pid) hc
              have hc2 : MembersConsistent env
                  (getGroupMembers env (getGroupName env s pid).state
                    pid).state :=
                getGroupMembers_consistent env _ pid hc1
              have hval2 : (getGroupMembers env (getGroupName env s pid).state
                  pid).value = memberList env pid :=
                getGroupMembers_value env _ pid hc1
              have hc3 : MembersConsistent env
                  (memberRows env accountId psName
                    (getGroupName env s pid).value
                    (getGroupMembers env (getGroupName env s pid).state
                      pid).state
                    (getGroupMembers env (getGroupName env s pid).state
                      pid).value).2 :=
                memberRows_consistent env accountId psName _ _ _ hc2
              have hrec := ih _ hc3
              constructor
              · rw [if_neg huser, List.length_append, memberRows_length,
                  hrec.1,
                  directUserCount_cons, groupMemberSum_cons]
                simp only [hval, hval2]
                simp
                omega
              · exact hrec.2
            · have hval : (refTruthy ⟨some pid, some ptype⟩ &&
                  ((some ptype : Option String) == some "USER")) = false := by
                simp [huser]
              have hval2 : (refTruthy ⟨some pid, some ptype⟩ &&
                  ((some ptype : Option String) == some "GROUP")) = false := by
                simp [hgroup]
              simp only [processRefs, hskip, if_false, huser, hgroup,
                reduceIte, directUserCount_cons, groupMemberSum_cons, hval,
                hval2]
              simpa using ih s hc

theorem directUserCount_append (a b : List AssignmentRef) :
    directUserCount (a ++ b) = directUserCount a + directUserCount b := by
  simp [directUserCount, List.filter_append]

theorem groupMemberSum_append (env : Env) (a b : List AssignmentRef) :
    groupMemberSum env (a ++ b) =
      groupMemberSum env a + groupMemberSum env b := by
  simp [groupMemberSum, List.map_append]

/-- The flattened reference list across all pages of one work unit. -/
def gatheredRefs (env : Env) (accountId psArn : String) :
    List AssignmentRef :=
  ((env.assignmentPages accountId psArn).map (pageRefs env accountId)).flatten

theorem getAssignmentsLoop_spec (env : Env) (accountId psName : String) :
    ∀ (s : CacheState)
      (pages : List (Nat → Except AwsError (List AssignmentRef))),
      MembersConsistent env s →
      (∀ page ∈ pages, (pageRetry env accountId page).isOk = true) →
      ∃ rows s',
        getAssignmentsLoop env accountId psName s pages =
            (Except.ok rows, s') ∧
          MembersConsistent env s' ∧
          rows.length =
            directUserCount ((pages.map (pageRefs env accountId)).flatten) +
              groupMemberSum env ((pages.map (pageRefs env accountId)).flatten)
    := by
  intro s pages
  induction pages generalizing s with
  | nil =>
    intro hc _
    exact ⟨[], s, rfl, hc, by simp [directUserCount, groupMemberSum]⟩
  | cons page rest ih =>
    intro hc hok
    have hpage := hok page (List.mem_cons_self page rest)
    cases hpr : pageRetry env accountId page with
    | error e => rw [hpr] at hpage; simp [Except.isOk, Except.toBool] at hpage
    | ok refs =>
      have hrefs : pageRefs env accountId page = refs := by
        simp [pageRefs, hpr]
      have hps := processRefs_spec env accountId psName s refs hc
      obtain ⟨more, s', hloop, hc', hlen⟩ :=
        ih (processRefs env accountId psName s refs).2 hps.2
          (fun p hp => hok p (List.mem_cons_of_mem page hp))
      refine ⟨(processRefs env accountId psName s refs).1 ++ more, s', ?_,
        hc', ?_⟩
      · simp only [getAssignmentsLoop, hpr, hloop]
      · simp only [List.map_cons, List.flatten_cons, hrefs,
          directUserCount_append, groupMemberSum_append,
          List.length_append, hps.1, hlen]
        omega

/-- Claim C1: on any consistent cache state, when every page request of the
assignment-listing loop succeeds (through its retry wrapper), the work
unit's row list has length equal to the number of direct USER references
plus the sum of the resolved member counts of its GROUP references; a
reference whose principal id or principal type is falsy is skipped,
changing neither the rows nor the caches. -/
theorem C1_assignment_row_count (env : Env) (s : CacheState)
    (accountId psArn psName : String)
    (hc : MembersConsistent env s)
    (hok : ∀ page ∈ env.assignmentPages accountId psArn,
      (pageRetry env accountId page).isOk = true) :
    (∃ rows s',
      getAssignments env s accountId psArn psName = (Except.ok rows, s') ∧
        rows.length = directUserCount (gatheredRefs env accountId psArn) +
          groupMemberSum env (gatheredRefs env accountId psArn)) ∧
      ∀ (r : AssignmentRef) (s₀ : CacheState) (rest : List AssignmentRef),
        refTruthy r = false →
        processRefs env accountId psName s₀ (r :: rest) =
          processRefs env accountId psName s₀ rest := by
  constructor
  · obtain ⟨rows, s', hloop, _, hlen⟩ :=
      getAssignmentsLoop_spec env accountId psName s
        (env.assignmentPages accountId psArn) hc hok
    exact ⟨rows, s', hloop, hlen⟩
  · intro r s₀ rest hfalsy
    obtain ⟨pidO, ptypeO⟩ := r
    cases pidO with
    | none => cases ptypeO <;> simp [processRefs]
    | some pid =>
      cases ptypeO with
      | none => simp [processRefs]
      | some ptype =>
        simp only [refTruthy, jsTruthy, Bool.and_eq_false_iff] at hfalsy
        have hskip : pid = "" ∨ ptype = "" := by
          rcases hfalsy with h | h
          · left
            simpa using h
          · right
            simpa using h
        simp [processRefs, hskip]

/-! ## Concrete test fixtures -/

def throttleErr : AwsError :=
  ⟨"ThrottlingException", "Rate exceeded", some 429⟩

def notFoundErr : AwsError :=
  ⟨"ResourceNotFoundException", "Resource not found", some 400⟩

def internalErr : AwsError :=
  ⟨"InternalFailure", "boom", some 500⟩

/-- Fixture for C1: one direct USER reference, one GROUP reference whose
group has two members, and one reference with a missing principal id. -/
def envC1 : Env where
  jitter := fun _ => 0
  describeUser := fun _ _ => Except.ok (some "alice")
  describeGroup := fun _ _ => Except.ok (some "Devs")
  groupPages := fun _ => [fun _ => Except.ok [some "u1", some "u2"]]
  assignmentPages := fun _ _ =>
    [fun _ => Except.ok
      [⟨some "u-direct", some "USER"⟩,
       ⟨some "g-1", some "GROUP"⟩,
       ⟨none, some "USER"⟩]]

theorem C1_assignment_row_count_witness :
    (∃ rows s',
      getAssignments envC1 CacheState.empty "111122223333" "ps-arn" "Admin" =
          (Except.ok rows, s') ∧
        rows.length =
          directUserCount (gatheredRefs envC1 "111122223333" "ps-arn") +
            groupMemberSum envC1 (gatheredRefs envC1 "111122223333" "ps-arn"))
      ∧
      ∀ (r : AssignmentRef) (s₀ : CacheState) (rest : List AssignmentRef),
        refTruthy r = false →
        processRefs envC1 "111122223333" "Admin" s₀ (r :: rest) =
          processRefs envC1 "111122223333" "Admin" s₀ rest :=
  C1_assignment_row_count envC1 CacheState.empty "111122223333" "ps-arn"
    "Admin"
    (by intro g ms h; simp [CacheState.empty, alookup] at h)
    (by
      intro page hp
      simp only [envC1, List.mem_singleton] at hp
      subst hp
      rfl)

/-- Claim C2: over the default retry budget the k-th computed delay is
`INITIAL_RETRY_DELAY * 2 ^ k` plus the bounded jitter for attempt `k`, the
wrapped operation is invoked at most `MAX_RETRIES + 1` times, and a
first-attempt error that is not rate-limit classified is rethrown after a
single invocation. -/
theorem C2_retry_backoff {α : Type} (op : Nat → Except AwsError α)
    (jitter : Nat → Nat) (name : String)
    (hj : ∀ k, jitter k < 1000) :
    (retryWithBackoff op jitter name MAX_RETRIES).delays =
        (List.range
            (retryWithBackoff op jitter name MAX_RETRIES).delays.length).map
          (fun k => INITIAL_RETRY_DELAY * 2 ^ k + jitter k) ∧
      (∀ k, jitter k < 1000) ∧
      (retryWithBackoff op jitter name MAX_RETRIES).invocations ≤
        MAX_RETRIES + 1 ∧
      ∀ e, op 0 = Except.error e → isRateLimitError e = false →
        (retryWithBackoff op jitter name MAX_RETRIES).result =
            Except.error e ∧
          (retryWithBackoff op jitter name MAX_RETRIES).invocations = 1 := by
  refine ⟨?_, hj, ?_, ?_⟩
  · have h := retryLoop_delays_eq op jitter name MAX_RETRIES 0 (MAX_RETRIES + 1)
    rw [retryWithBackoff, h, List.range_eq_range']
    simp
  · exact retryLoop_invocations_le op jitter name MAX_RETRIES 0 (MAX_RETRIES + 1)
  · intro e he hrl
    rw [retryLoop_nonRateLimit op jitter name MAX_RETRIES e he hrl]
    exact ⟨rfl, rfl⟩

def opC2 : Nat → Except AwsError Unit := fun _ => Except.error throttleErr

def jitter17 : Nat → Nat := fun _ => 17

theorem C2_retry_backoff_witness :
    (retryWithBackoff opC2 jitter17 "DescribeUser(u)" MAX_RETRIES).delays =
        (List.range
            (retryWithBackoff opC2 jitter17 "DescribeUser(u)"
              MAX_RETRIES).delays.length).map
          (fun k => INITIAL_RETRY_DELAY * 2 ^ k + jitter17 k) ∧
      (∀ k, jitter17 k < 1000) ∧
      (retryWithBackoff opC2 jitter17 "DescribeUser(u)"
          MAX_RETRIES).invocations ≤ MAX_RETRIES + 1 ∧
      ∀ e, opC2 0 = Except.error e → isRateLimitError e = false →
        (retryWithBackoff opC2 jitter17 "DescribeUser(u)"
            MAX_RETRIES).result = Except.error e ∧
          (retryWithBackoff opC2 jitter17 "DescribeUser(u)"
            MAX_RETRIES).invocations = 1 :=
  C2_retry_backoff opC2 jitter17 "DescribeUser(u)"
    (by intro k; show (17 : Nat) < 1000; decide)

/-- Claim C3: a `DescribeUser` lookup failing with a not-found error (not
rate-limit classified, hence rethrown unchanged by the retry wrapper)
returns the exact tombstone string and caches it — `getUserName` returns
normally rather than raising; same for `getGroupName`. -/
theorem C3_notfound_tombstones (env : Env) (s : CacheState)
    (userId groupId : String) (eu eg : AwsError)
    (hu : alookup s.userCache userId = none)
    (hg : alookup s.groupCache groupId = none)
    (hue : env.describeUser userId 0 = Except.error eu)
    (hun : eu.name = "ResourceNotFoundException")
    (hurl : isRateLimitError eu = false)
    (hge : env.describeGroup groupId 0 = Except.error eg)
    (hgn : eg.name = "ResourceNotFoundException")
    (hgrl : isRateLimitError eg = false) :
    (getUserName env s userId).value = "[Deleted User: " ++ userId ++ "]" ∧
      alookup (getUserName env s userId).state.userCache userId =
        some ("[Deleted User: " ++ userId ++ "]") ∧
      (getGroupName env s groupId).value =
        "[Deleted Group: " ++ groupId ++ "]" ∧
      alookup (getGroupName env s groupId).state.groupCache groupId =
        some ("[Deleted Group: " ++ groupId ++ "]") := by
  have hru := retryLoop_nonRateLimit (env.describeUser userId) env.jitter
    ("DescribeUser(" ++ userId ++ ")") MAX_RETRIES eu hue hurl
  have hrg := retryLoop_nonRateLimit (env.describeGroup groupId) env.jitter
    ("DescribeGroup(" ++ groupId ++ ")") MAX_RETRIES eg hge hgrl
  refine ⟨?_, ?_, ?_, ?_⟩ <;>
    simp [getUserName, getGroupName, hu, hg, hru, hrg, hun, hgn,
      deletedUserTombstone, deletedGroupTombstone, alookup_aset]

def envC3 : Env where
  jitter := fun _ => 0
  describeUser := fun _ _ => Except.error notFoundErr
  describeGroup := fun _ _ => Except.error notFoundErr
  groupPages := fun _ => []
  assignmentPages := fun _ _ => []

theorem C3_notfound_tombstones_witness :
    (getUserName envC3 CacheState.empty "u-123").value =
        "[Deleted User: " ++ "u-123" ++ "]" ∧
      alookup (getUserName envC3 CacheState.empty "u-123").state.userCache
          "u-123" = some ("[Deleted User: " ++ "u-123" ++ "]") ∧
      (getGroupName envC3 CacheState.empty "g-123").value =
        "[Deleted Group: " ++ "g-123" ++ "]" ∧
      alookup (getGroupName envC3 CacheState.empty "g-123").state.groupCache
          "g-123" = some ("[Deleted Group: " ++ "g-123" ++ "]") :=
  C3_notfound_tombstones envC3 CacheState.empty "u-123" "g-123" notFoundErr
    notFoundErr rfl rfl rfl rfl (by decide) rfl rfl (by decide)

/-- Amended claim C4: a user-name lookup failing with an error that is
neither rate-limit classified nor not-found does NOT propagate: the `catch`
at source line 211 absorbs every error, returns the raw user id, and caches
it (line 221), so the next resolution of the same id is a pure cache hit
issuing zero remote calls. -/
theorem C4_other_error_cached (env : Env) (s : CacheState) (userId : String)
    (e : AwsError)
    (hu : alookup s.userCache userId = none)
    (he : env.describeUser userId 0 = Except.error e)
    (hrl : isRateLimitError e = false)
    (hname : e.name ≠ "ResourceNotFoundException") :
    (getUserName env s userId).value = userId ∧
      alookup (getUserName env s userId).state.userCache userId =
        some userId ∧
      getUserName env (getUserName env s userId).state userId =
        ⟨userId, (getUserName env s userId).state, 0⟩ := by
  have hru := retryLoop_nonRateLimit (env.describeUser userId) env.jitter
    ("DescribeUser(" ++ userId ++ ")") MAX_RETRIES e he hrl
  have h1 : (getUserName env s userId).value = userId := by
    simp [getUserName, hu, hru, hname]
  have h2 : alookup (getUserName env s userId).state.userCache userId =
      some userId := by
    simp [getUserName, hu, hru, hname, alookup_aset]
  refine ⟨h1, h2, ?_⟩
  rw [getUserName]
  rw [h2]

def envC4 : Env where
  jitter := fun _ => 0
  describeUser := fun _ _ => Except.error internalErr
  describeGroup := fun _ _ => Except.ok (some "G")
  groupPages := fun _ => []
  assignmentPages := fun _ _ => []

/-- Counterexample to claim C4 as stated: with an `InternalFailure` error
(neither throttle nor not-found) the resolution does not propagate an
error — it returns the raw id — the user cache IS written, and a later
resolution of the same id issues zero remote calls instead of retrying. -/
theorem C4_counterexample :
    (getUserName envC4 CacheState.empty "u-1").value = "u-1" ∧
      alookup (getUserName envC4 CacheState.empty "u-1").state.userCache
          "u-1" ≠ none ∧
      (getUserName envC4
        (getUserName envC4 CacheState.empty "u-1").state "u-1").remoteCalls
        = 0 := by
  refine ⟨rfl, ?_, rfl⟩
  intro h
  simp [getUserName, CacheState.empty, alookup, envC4, retryWithBackoff,
    retryLoop, internalErr, isRateLimitError, aset, alookup_aset] at h

theorem C4_other_error_cached_witness :
    (getUserName envC4 CacheState.empty "u-1").value = "u-1" ∧
      alookup (getUserName envC4 CacheState.empty "u-1").state.userCache
          "u-1" = some "u-1" ∧
      getUserName envC4 (getUserName envC4 CacheState.empty "u-1").state
          "u-1" =
        ⟨"u-1", (getUserName envC4 CacheState.empty "u-1").state, 0⟩ :=
  C4_other_error_cached envC4 CacheState.empty "u-1" internalErr rfl rfl
    (by decide) (by decide)

theorem getUserName_groupCache (env : Env) (s : CacheState)
    (userId : String) :
    (getUserName env s userId).state.groupCache = s.groupCache := by
  unfold getUserName
  cases alookup s.userCache userId with
  | some v => rfl
  | none =>
    cases (retryWithBackoff (env.describeUser userId) env.jitter
        ("DescribeUser(" ++ userId ++ ")") MAX_RETRIES).result with
    | ok v => rfl
    | error e => rfl

theorem getGroupMembers_groupCache (env : Env) (s : CacheState)
    (groupId : String) :
    (getGroupMembers env s groupId).state.groupCache = s.groupCache := by
  unfold getGroupMembers
  cases alookup s.groupMembersCache groupId with
  | some ms => rfl
  | none => rfl

theorem memberRows_groupCache (env : Env)
    (accountId psName groupName : String) :
    ∀ (s : CacheState) (members : List String),
      (memberRows env accountId psName groupName s members).2.groupCache =
        s.groupCache := by
  intro s members
  induction members generalizing s with
  | nil => rfl
  | cons mid rest ih =>
    simp only [memberRows]
    rw [ih]
    exact getUserName_groupCache env s mid

theorem getGroupName_groupCache_lookup (env : Env) (s : CacheState)
    (groupId : String) (eg : AwsError)
    (hgc : alookup s.groupCache groupId = none)
    (hdg : env.describeGroup groupId 0 = Except.error eg)
    (hgn : eg.name = "ResourceNotFoundException")
    (hgrl : isRateLimitError eg = false) :
    (getGroupName env s groupId).value =
        "[Deleted Group: " ++ groupId ++ "]" ∧
      alookup (getGroupName env s groupId).state.groupCache groupId =
        some ("[Deleted Group: " ++ groupId ++ "]") ∧
      (getGroupName env s groupId).state.groupMembersCache =
        s.groupMembersCache := by
  have hrg := retryLoop_nonRateLimit (env.describeGroup groupId) env.jitter
    ("DescribeGroup(" ++ groupId ++ ")") MAX_RETRIES eg hdg hgrl
  refine ⟨?_, ?_, ?_⟩ <;>
    simp [getGroupName, hgc, hrg, hgn, deletedGroupTombstone, alookup_aset]

/-- Claim C6: a group whose first membership page fails with not-found gets
an empty member list cached (not a tombstone); the GROUP reference then
produces zero rows, while the group's name was still resolved (to its
tombstone) in the group-name cache — the tombstone is never emitted as a row
by itself. -/
theorem C6_notfound_group_empty (env : Env) (s : CacheState)
    (g accountId psName : String) (err eg : AwsError)
    (page : Nat → Except AwsError (List (Option String)))
    (rest : List (Nat → Except AwsError (List (Option String))))
    (hne : g ≠ "")
    (hmc : alookup s.groupMembersCache g = none)
    (hgc : alookup s.groupCache g = none)
    (hpages : env.groupPages g = page :: rest)
    (herr : page 0 = Except.error err)
    (hdg : env.describeGroup g 0 = Except.error eg)
    (hgn : eg.name = "ResourceNotFoundException")
    (hgrl : isRateLimitError eg = false) :
    (getGroupMembers env s g).value = [] ∧
      alookup (getGroupMembers env s g).state.groupMembersCache g =
        some [] ∧
      (processRefs env accountId psName s [⟨some g, some "GROUP"⟩]).1 = [] ∧
      alookup (processRefs env accountId psName s
          [⟨some g, some "GROUP"⟩]).2.groupCache g =
        some ("[Deleted Group: " ++ g ++ "]") := by
  have hml : memberList env g = [] := by
    rw [memberList, hpages]
    simp [collectMembers, herr]
  have hgm : ∀ (s₀ : CacheState), alookup s₀.groupMembersCache g = none →
      (getGroupMembers env s₀ g).value = [] ∧
        alookup (getGroupMembers env s₀ g).state.groupMembersCache g =
          some [] := by
    intro s₀ h₀
    constructor
    · simp [getGroupMembers, h₀, hml]
    · simp [getGroupMembers, h₀, hml, alookup_aset]
  obtain ⟨hname, hcache, hmemb⟩ :=
    getGroupName_groupCache_lookup env s g eg hgc hdg hgn hgrl
  have hmc' : alookup (getGroupName env s g).state.groupMembersCache g =
      none := by rw [hmemb]; exact hmc
  refine ⟨(hgm s hmc).1, (hgm s hmc).2, ?_, ?_⟩
  · simp only [processRefs, hne, false_or, reduceIte]
    have hv := (hgm (getGroupName env s g).state hmc').1
    rw [hv]
    simp [memberRows, processRefs]
  · simp only [processRefs, hne, false_or, reduceIte]
    have hv := (hgm (getGroupName env s g).state hmc').1
    rw [hv]
    simp [memberRows, processRefs, getGroupMembers_groupCache, hcache]

def pageC6 : Nat → Except AwsError (List (Option String)) :=
  fun _ => Except.error notFoundErr

def envC6 : Env where
  jitter := fun _ => 0
  describeUser := fun _ _ => Except.ok (some "alice")
  describeGroup := fun _ _ => Except.error notFoundErr
  groupPages := fun _ => [pageC6]
  assignmentPages := fun _ _ => []

theorem C6_notfound_group_empty_witness :
    (getGroupMembers envC6 CacheState.empty "g-123").value = [] ∧
      alookup (getGroupMembers envC6
          CacheState.empty "g-123").state.groupMembersCache "g-123" =
        some [] ∧
      (processRefs envC6 "111122223333" "Admin" CacheState.empty
        [⟨some "g-123", some "GROUP"⟩]).1 = [] ∧
      alookup (processRefs envC6 "111122223333" "Admin" CacheState.empty
          [⟨some "g-123", some "GROUP"⟩]).2.groupCache "g-123" =
        some ("[Deleted Group: " ++ "g-123" ++ "]") :=
  C6_notfound_group_empty envC6 CacheState.empty "g-123" "111122223333"
    "Admin" notFoundErr notFoundErr pageC6 [] (by decide) rfl rfl rfl rfl
    rfl rfl (by decide)

theorem alookup_aset_preserve {α : Type} (m : List (String × α))
    (x k : String) (w v : α) (hx : alookup m x = none)
    (h : alookup m k = some v) : alookup (aset m x w) k = some v := by
  rw [alookup_aset]
  by_cases hk : k = x
  · subst hk
    rw [h] at hx
    cases hx
  · rw [if_neg hk]
    exact h

theorem getUserName_hit (env : Env) (s : CacheState) (id v : String)
    (h : alookup s.userCache id = some v) :
    getUserName env s id = ⟨v, s, 0⟩ := by
  rw [getUserName, h]

theorem getGroupName_hit (env : Env) (s : CacheState) (id v : String)
    (h : alookup s.groupCache id = some v) :
    getGroupName env s id = ⟨v, s, 0⟩ := by
  rw [getGroupName, h]

theorem getGroupMembers_hit (env : Env) (s : CacheState) (id : String)
    (ms : List String) (h : alookup s.groupMembersCache id = some ms) :
    getGroupMembers env s id = ⟨ms, s, 0⟩ := by
  rw [getGroupMembers, h]

theorem getUserName_preserve (env : Env) (s : CacheState) (x k v : String)
    (h : alookup s.userCache k = some v) :
    alookup (getUserName env s x).state.userCache k = some v := by
  unfold getUserName
  cases hx : alookup s.userCache x with
  | some w => exact h
  | none =>
    cases (retryWithBackoff (env.describeUser x) env.jitter
        ("DescribeUser(" ++ x ++ ")") MAX_RETRIES).result with
    | ok nm => exact alookup_aset_preserve s.userCache x k _ v hx h
    | error e => exact alookup_aset_preserve s.userCache x k _ v hx h

theorem getGroupName_preserve (env : Env) (s : CacheState) (x k v : String)
    (h : alookup s.groupCache k = some v) :
    alookup (getGroupName env s x).state.groupCache k = some v := by
  unfold getGroupName
  cases hx : alookup s.groupCache x with
  | some w => exact h
  | none =>
    cases (retryWithBackoff (env.describeGroup x) env.jitter
        ("DescribeGroup(" ++ x ++ ")") MAX_RETRIES).result with
    | ok nm => exact alookup_aset_preserve s.groupCache x k _ v hx h
    | error e => exact alookup_aset_preserve s.groupCache x k _ v hx h

theorem getGroupMembers_preserve (env : Env) (s : CacheState) (x k : String)
    (ms : List String) (h : alookup s.groupMembersCache k = some ms) :
    alookup (getGroupMembers env s x).state.groupMembersCache k = some ms
    := by
  unfold getGroupMembers
  cases hx : alookup s.groupMembersCache x with
  | some w => exact h
  | none => exact alookup_aset_preserve s.groupMembersCache x k _ ms hx h

theorem getUserName_cached_after (env : Env) (s : CacheState) (id : String) :
    alookup (getUserName env s id).state.userCache id =
      some (getUserName env s id).value := by
  unfold getUserName
  cases hx : alookup s.userCache id with
  | some w => exact hx
  | none =>
    cases (retryWithBackoff (env.describeUser id) env.jitter
        ("DescribeUser(" ++ id ++ ")") MAX_RETRIES).result with
    | ok nm => simp [alookup_aset]
    | error e => simp [alookup_aset]

theorem getGroupName_cached_after (env : Env) (s : CacheState)
    (id : String) :
    alookup (getGroupName env s id).state.groupCache id =
      some (getGroupName env s id).value := by
  unfold getGroupName
  cases hx : alookup s.groupCache id with
  | some w => exact hx
  | none =>
    cases (retryWithBackoff (env.describeGroup id) env.jitter
        ("DescribeGroup(" ++ id ++ ")") MAX_RETRIES).result with
    | ok nm => simp [alookup_aset]
    | error e => simp [alookup_aset]

theorem getGroupMembers_cached_after (env : Env) (s : CacheState)
    (id : String) :
    alookup (getGroupMembers env s id).state.groupMembersCache id =
      some (getGroupMembers env s id).value := by
  unfold getGroupMembers
  cases hx : alookup s.groupMembersCache id with
  | some w => exact hx
  | none => simp [alookup_aset]

/-- Claim C8: for each of the three caches, a hit returns the cached value
with zero remote calls and an unchanged state; an existing entry survives
any call of its resolution function (entries are never removed or
overwritten); and a repeated resolution of the same id returns exactly the
value of the first resolution with zero remote calls. -/
theorem C8_cache_permanence (env : Env) :
    (∀ (s : CacheState) (id v : String),
      alookup s.userCache id = some v → getUserName env s id = ⟨v, s, 0⟩) ∧
    (∀ (s : CacheState) (id v : String),
      alookup s.groupCache id = some v → getGroupName env s id = ⟨v, s, 0⟩) ∧
    (∀ (s : CacheState) (id : String) (ms : List String),
      alookup s.groupMembersCache id = some ms →
        getGroupMembers env s id = ⟨ms, s, 0⟩) ∧
    (∀ (s : CacheState) (x k v : String),
      alookup s.userCache k = some v →
        alookup (getUserName env s x).state.userCache k = some v) ∧
    (∀ (s : CacheState) (x k v : String),
      alookup s.groupCache k = some v →
        alookup (getGroupName env s x).state.groupCache k = some v) ∧
    (∀ (s : CacheState) (x k : String) (ms : List String),
      alookup s.groupMembersCache k = some ms →
        alookup (getGroupMembers env s x).state.groupMembersCache k =
          some ms) ∧
    (∀ (s : CacheState) (id : String),
      getUserName env (getUserName env s id).state id =
        ⟨(getUserName env s id).value, (getUserName env s id).state, 0⟩) ∧
    (∀ (s : CacheState) (id : String),
      getGroupName env (getGroupName env s id).state id =
        ⟨(getGroupName env s id).value, (getGroupName env s id).state, 0⟩) ∧
    (∀ (s : CacheState) (id : String),
      getGroupMembers env (getGroupMembers env s id).state id =
        ⟨(getGroupMembers env s id).value,
          (getGroupMembers env s id).state, 0⟩) :=
  ⟨getUserName_hit env, getGroupName_hit env, getGroupMembers_hit env,
    getUserName_preserve env, getGroupName_preserve env,
    getGroupMembers_preserve env,
    fun s id => getUserName_hit env _ id _ (getUserName_cached_after env s id),
    fun s id =>
      getGroupName_hit env _ id _ (getGroupName_cached_after env s id),
    fun s id =>
      getGroupMembers_hit env _ id _ (getGroupMembers_cached_after env s id)⟩

def stC8 : CacheState :=
  ⟨[("u-1", "alice")], [("g-1", "Devs")], [("g-1", ["u-1"])]⟩

theorem C8_cache_permanence_witness :
    getUserName envC1 stC8 "u-1" = ⟨"alice", stC8, 0⟩ ∧
      getGroupName envC1 stC8 "g-1" = ⟨"Devs", stC8, 0⟩ ∧
      getGroupMembers envC1 stC8 "g-1" = ⟨["u-1"], stC8, 0⟩ :=
  ⟨(C8_cache_permanence envC1).1 stC8 "u-1" "alice" rfl,
    (C8_cache_permanence envC1).2.1 stC8 "g-1" "Devs" rfl,
    (C8_cache_permanence envC1).2.2.1 stC8 "g-1" ["u-1"] rfl⟩

theorem retryLoop_persistent_throttle {α : Type}
    (op : Nat → Except AwsError α) (jitter : Nat → Nat) (name : String)
    (retries : Nat) (e : AwsError)
    (hall : ∀ k, op k = Except.error e) (hrl : isRateLimitError e = true) :
    ∀ fuel attempt, attempt ≤ retries → attempt + fuel = retries + 1 →
      (retryLoop op jitter name retries attempt fuel).result =
          Except.error e ∧
        (retryLoop op jitter name retries attempt fuel).invocations = fuel
    := by
  intro fuel
  induction fuel with
  | zero =>
    intro attempt hle heq
    omega
  | succ n ih =>
    intro attempt hle heq
    simp only [retryLoop, hall attempt]
    by_cases hat : attempt = retries
    · simp [hrl, hat]
      omega
    · have hcond : ¬ (isRateLimitError e = false ∨ attempt = retries) := by
        simp [hrl, hat]
      simp only [hcond, if_false]
      have hr := ih (attempt + 1) (by omega) (by omega)
      exact ⟨hr.1, by simp [hr.2]⟩

/-- Amended claim C9: when every attempt fails with the same rate-limit
error, the retry wrapper performs `MAX_RETRIES + 1` invocations and then
rethrows that underlying throttle error unchanged; the terminal error is
the service's own error object, never the post-loop `Failed after N
retries` error (whose construction at source line 103 is unreachable), so
it carries whatever the service put there, not the operation label. -/
theorem C9_exhaustion_rethrows {α : Type} (op : Nat → Except AwsError α)
    (jitter : Nat → Nat) (name : String) (e : AwsError)
    (hall : ∀ k, op k = Except.error e) (hrl : isRateLimitError e = true) :
    (retryWithBackoff op jitter name MAX_RETRIES).result = Except.error e ∧
      (retryWithBackoff op jitter name MAX_RETRIES).invocations =
        MAX_RETRIES + 1 ∧
      (retryWithBackoff op jitter name MAX_RETRIES).result ≠
        Except.error (failedAfterError MAX_RETRIES) := by
  have h := retryLoop_persistent_throttle op jitter name MAX_RETRIES e hall
    hrl (MAX_RETRIES + 1) 0 (by omega) (by omega)
  have hres : (retryWithBackoff op jitter name MAX_RETRIES).result =
      Except.error e := h.1
  have hinv : (retryWithBackoff op jitter name MAX_RETRIES).invocations =
      MAX_RETRIES + 1 := h.2
  refine ⟨hres, hinv, ?_⟩
  rw [hres]
  intro heq
  have he : e = failedAfterError MAX_RETRIES := by injection heq
  rw [he] at hrl
  exact absurd hrl (by decide)

def opC9 : Nat → Except AwsError Unit := fun _ => Except.error throttleErr

def jitter0 : Nat → Nat := fun _ => 0

/-- Counterexample to claim C9 as stated: with a persistently throttled
operation labelled `ListAccountAssignments(111122223333)`, the surfaced
terminal error is the raw `ThrottlingException` whose name and message
contain neither the operation label nor the retry count `5`. -/
theorem C9_counterexample :
    (retryWithBackoff opC9 jitter0 "ListAccountAssignments(111122223333)"
        MAX_RETRIES).result = Except.error throttleErr ∧
      ¬ ("ListAccountAssignments".toList <:+:
          throttleErr.message.toList) ∧
      ¬ ("ListAccountAssignments".toList <:+: throttleErr.name.toList) ∧
      ¬ ((toString MAX_RETRIES).toList <:+: throttleErr.message.toList) ∧
      ¬ ((toString MAX_RETRIES).toList <:+: throttleErr.name.toList) := by
  refine ⟨rfl, ?_, ?_, ?_, ?_⟩ <;> decide

theorem C9_exhaustion_rethrows_witness :
    (retryWithBackoff opC9 jitter0 "ListAccountAssignments(111122223333)"
        MAX_RETRIES).result = Except.error throttleErr ∧
      (retryWithBackoff opC9 jitter0 "ListAccountAssignments(111122223333)"
          MAX_RETRIES).invocations = MAX_RETRIES + 1 ∧
      (retryWithBackoff opC9 jitter0 "ListAccountAssignments(111122223333)"
          MAX_RETRIES).result ≠
        Except.error (failedAfterError MAX_RETRIES) :=
  C9_exhaustion_rethrows opC9 jitter0
    "ListAccountAssignments(111122223333)" throttleErr (fun _ => rfl)
    (by decide)

/-- Definition following the specification's words (§4.1: pagination
internal calls "must each be individually wrapped") for comparison with the
source: member accumulation as it would be if each `ListGroupMemberships`
page request went through `retryWithBackoff`.  `collectMembers`, translated
from the source, instead issues every page request exactly once with no
wrapping. -/
def collectMembersRetried (jitter : Nat → Nat) :
    List (Nat → Except AwsError (List (Option String))) → List String
  | [] => []
  | page :: rest =>
    match (retryWithBackoff page jitter "ListGroupMemberships"
        MAX_RETRIES).result with
    | Except.ok memberships =>
      memberships.filterMap id ++ collectMembersRetried jitter rest
    | Except.error _ => []

def pageC5 : Nat → Except AwsError (List (Option String)) :=
  fun k => if k = 0 then Except.error throttleErr else Except.ok [some "u1"]

def pageC5ok : Nat → Except AwsError (List (Option String)) :=
  fun _ => Except.ok [some "u1"]

def envC5 : Env where
  jitter := jitter0
  describeUser := fun _ _ => Except.ok (some "alice")
  describeGroup := fun _ _ => Except.ok (some "Devs")
  groupPages := fun _ => [pageC5]
  assignmentPages := fun _ _ => []

def envC5ok : Env where
  jitter := jitter0
  describeUser := fun _ _ => Except.ok (some "alice")
  describeGroup := fun _ _ => Except.ok (some "Devs")
  groupPages := fun _ => [pageC5ok]
  assignmentPages := fun _ _ => []

/-- Counterexample to claim C5 as stated: a group-membership page that
throttles on its first attempt and would succeed on the second has the same
retry-wrapped outcome as an immediately succeeding page, yet the source's
unwrapped membership loop returns an empty member list for it instead of
the member list an immediate success yields — so not every rate-limited
remote call is wrapped, and the throttled call is not equivalent to an
immediate success. -/
theorem C5_counterexample :
    (retryWithBackoff pageC5 jitter0 "ListGroupMemberships"
          MAX_RETRIES).result =
        (retryWithBackoff pageC5ok jitter0 "ListGroupMemberships"
          MAX_RETRIES).result ∧
      collectMembersRetried jitter0 [pageC5] =
        collectMembersRetried jitter0 [pageC5ok] ∧
      collectMembers [pageC5] = [] ∧
      collectMembers [pageC5ok] = ["u1"] ∧
      collectMembers [pageC5] ≠ collectMembers [pageC5ok] ∧
      (getGroupMembers envC5 CacheState.empty "g-1").value = [] ∧
      (getGroupMembers envC5ok CacheState.empty "g-1").value = ["u1"] := by
  refine ⟨rfl, rfl, rfl, rfl, ?_, rfl, rfl⟩
  decide

/-- Amended claim C5: each page request of the assignment-listing loop is
individually wrapped by the retry governor — the loop's result depends on a
page only through its retry-wrapped outcome, and a page that throttles once
then succeeds has the same wrapped outcome as an immediate success.  The
group-membership pages are NOT so wrapped; see the counterexample. -/
theorem C5_assignment_pages_wrapped (env : Env)
    (accountId psName : String) :
    (∀ (s : CacheState)
        (pages pages' : List (Nat → Except AwsError (List AssignmentRef))),
      pages.map (pageRetry env accountId) =
          pages'.map (pageRetry env accountId) →
      getAssignmentsLoop env accountId psName s pages =
        getAssignmentsLoop env accountId psName s pages') ∧
      ∀ (page : Nat → Except AwsError (List AssignmentRef)) (e : AwsError)
        (v : List AssignmentRef),
        page 0 = Except.error e → isRateLimitError e = true →
        page 1 = Except.ok v →
        pageRetry env accountId page = Except.ok v := by
  constructor
  · intro s pages pages' hmap
    induction pages generalizing s pages' with
    | nil =>
      cases pages' with
      | nil => rfl
      | cons p' r' => simp at hmap
    | cons p r ih =>
      cases pages' with
      | nil => simp at hmap
      | cons p' r' =>
        simp only [List.map_cons, List.cons.injEq] at hmap
        simp only [getAssignmentsLoop, hmap.1]
        cases hpr : pageRetry env accountId p' with
        | error e => rfl
        | ok refs =>
          dsimp only
          rw [ih _ r' hmap.2]
  · intro page e v h0 hrl h1
    simp [pageRetry, retryWithBackoff, retryLoop, h0, hrl, h1, MAX_RETRIES]

def apageC5 : Nat → Except AwsError (List AssignmentRef) :=
  fun k =>
    if k = 0 then Except.error throttleErr
    else Except.ok [⟨some "u-1", some "USER"⟩]

theorem C5_assignment_pages_wrapped_witness :
    pageRetry envC5 "111122223333" apageC5 =
      Except.ok [⟨some "u-1", some "USER"⟩] :=
  (C5_assignment_pages_wrapped envC5 "111122223333" "Admin").2 apageC5
    throttleErr [⟨some "u-1", some "USER"⟩] rfl (by decide) rfl

/-! ## CSV escaping (source lines 626-648)

`escapeCsv` is translated from the source; `unescapeQuotes`,
`parseFieldChars` and `parseCsvField` model a standard CSV parser's reading
of a single field, against which the claimed round trip is stated. -/

/-- Character-wise effect of `value.replace(/"/g, '""')`: every double
quote is doubled. -/
def escapeQuotes : List Char → List Char
  | [] => []
  | c :: rest =>
    if c = '"' then '"' :: '"' :: escapeQuotes rest
    else c :: escapeQuotes rest

/-- `escapeCsv` of source lines 630-635: a value containing a comma, a
double quote or a newline is wrapped in double quotes with embedded quotes
doubled; anything else is emitted verbatim. -/
def escapeCsv (value : String) : String :=
  if value.toList.contains ',' || value.toList.contains '"' ||
      value.toList.contains '\n' then
    String.mk ('"' :: (escapeQuotes value.toList ++ ['"']))
  else value

/-- Standard CSV unquoting: inside a quoted field each doubled quote reads
as one quote. -/
def unescapeQuotes : List Char → List Char
  | [] => []
  | [c] => [c]
  | c :: d :: rest =>
    if c = '"' ∧ d = '"' then '"' :: unescapeQuotes rest
    else c :: unescapeQuotes (d :: rest)

/-- Standard CSV reading of one field: a field starting with a double quote
is read as quoted content (final quote stripped, doubled quotes collapsed);
any other field is read verbatim. -/
def parseFieldChars : List Char → List Char
  | [] => []
  | c :: rest =>
    if c = '"' then unescapeQuotes rest.dropLast
    else c :: rest

def parseCsvField (s : String) : String :=
  String.mk (parseFieldChars s.toList)

/-- Header row and data rows of the output file (source lines 626-646). -/
def csvHeader : String :=
  "Account Number,Account Name,Username,Permission Set,Group"

def assignmentRowFields (a : AdminAssignment) : List String :=
  [escapeCsv a.accountNumber, escapeCsv a.accountName,
   escapeCsv a.username, escapeCsv a.permissionSetName,
   escapeCsv (a.groupName.getD "")]

def assignmentRow (a : AdminAssignment) : String :=
  String.intercalate "," (assignmentRowFields a)

def csvLines (assignments : List AdminAssignment) : List String :=
  csvHeader :: assignments.map assignmentRow

theorem string_mk_toList (s : String) : String.mk s.toList = s := by
  cases s
  rfl

theorem escapeQuotes_ne_nil (c : Char) (l : List Char) :
    escapeQuotes (c :: l) ≠ [] := by
  by_cases h : c = '"' <;> simp [escapeQuotes, h]

theorem unescape_escape (l : List Char) :
    unescapeQuotes (escapeQuotes l) = l := by
  induction l with
  | nil => rfl
  | cons c rest ih =>
    by_cases h : c = '"'
    · subst h
      rw [escapeQuotes, if_pos rfl]
      simp [unescapeQuotes, ih]
    · rw [escapeQuotes, if_neg h]
      cases hrest : escapeQuotes rest with
      | nil =>
        have hnil : rest = [] := by
          cases rest with
          | nil => rfl
          | cons d ds => exact absurd hrest (escapeQuotes_ne_nil d ds)
        subst hnil
        rfl
      | cons d ds =>
        have hcond : ¬ (c = '"' ∧ d = '"') := fun hp => h hp.1
        simp only [unescapeQuotes, hcond, if_false]
        rw [← hrest, ih]

/-- Claim C7: escaping then standard parsing returns every string
unchanged; a value with a comma, quote or newline is emitted quoted with
quotes doubled and any other value verbatim; the output starts with the
exact header row, has one data row per assignment, and the Group field of a
row without a group is the empty string. -/
theorem C7_csv_roundtrip :
    (∀ v : String, parseCsvField (escapeCsv v) = v) ∧
      (∀ v : String,
        (v.toList.contains ',' || v.toList.contains '"' ||
          v.toList.contains '\n') = true →
        escapeCsv v = String.mk ('"' :: (escapeQuotes v.toList ++ ['"']))) ∧
      (∀ v : String,
        (v.toList.contains ',' || v.toList.contains '"' ||
          v.toList.contains '\n') = false →
        escapeCsv v = v) ∧
      (∀ assignments : List AdminAssignment,
        csvLines assignments =
          "Account Number,Account Name,Username,Permission Set,Group" ::
            assignments.map assignmentRow) ∧
      (∀ assignments : List AdminAssignment,
        (csvLines assignments).length = assignments.length + 1) ∧
      ∀ a : AdminAssignment, a.groupName = none →
        assignmentRowFields a =
          [escapeCsv a.accountNumber, escapeCsv a.accountName,
           escapeCsv a.username, escapeCsv a.permissionSetName, ""] := by
  refine ⟨?_, ?_, ?_, ?_, ?_, ?_⟩
  · intro v
    by_cases hspec : (v.toList.contains ',' || v.toList.contains '"' ||
        v.toList.contains '\n') = true
    · rw [escapeCsv, if_pos hspec, parseCsvField]
      have h1 : parseFieldChars
          (String.mk ('"' :: (escapeQuotes v.toList ++ ['"']))).toList =
          unescapeQuotes (escapeQuotes v.toList ++ ['"']).dropLast := by
        simp [parseFieldChars]
      rw [h1, List.dropLast_concat, unescape_escape, string_mk_toList]
    · rw [escapeCsv, if_neg hspec, parseCsvField]
      have hq : v.toList.contains '"' = false := by
        simp only [Bool.or_eq_true, not_or] at hspec
        simpa using hspec.1.2
      cases hv : v.toList with
      | nil =>
        have h1 : String.mk (parseFieldChars []) =
            String.mk ([] : List Char) := rfl
        rw [h1, ← hv, string_mk_toList]
      | cons c rest =>
        have hc : ¬ c = '"' := by
          intro hceq
          rw [hv, hceq] at hq
          simp [List.contains_cons] at hq
        have h1 : String.mk (parseFieldChars (c :: rest)) =
            String.mk (c :: rest) := by
          simp [parseFieldChars, hc]
        rw [h1, ← hv, string_mk_toList]
  · intro v hv
    rw [escapeCsv, if_pos hv]
  · intro v hv
    rw [escapeCsv]
    rw [hv]
    rfl
  · intro assignments
    rfl
  · intro assignments
    simp [csvLines]
  · intro a hg
    simp [assignmentRowFields, hg]
    rfl

def aC7 : AdminAssignment :=
  ⟨"111122223333", "Prod", "alice", "AdminAccess", "USER", none⟩

theorem C7_csv_roundtrip_witness :
    parseCsvField (escapeCsv "a,b\"c\nd") = "a,b\"c\nd" ∧
      assignmentRowFields aC7 =
        [escapeCsv aC7.accountNumber, escapeCsv aC7.accountName,
         escapeCsv aC7.username, escapeCsv aC7.permissionSetName, ""] :=
  ⟨C7_csv_roundtrip.1 "a,b\"c\nd", C7_csv_roundtrip.2.2.2.2.2 aC7 rfl⟩

/-! ## Task fan-out and aggregation (source lines 520-616)

`main` builds `allTasks` as the account-major cartesian product of the
`accounts` and `allPermissionSets` maps (both insertion-ordered with unique
keys), awaits all task promises — `Promise.all` returns results in the
order of the task array regardless of completion interleaving, and each
task's row list is a pure function of the task in the oracle model — then
groups the results into `accountMap` keyed by account id in first-seen
order and flattens the map's values. -/

structure TaskUnit where
  accountId : String
  accountName : String
  permissionSetArn : String
  permissionSetName : String
deriving Repr, DecidableEq

/-- The `allTasks` array of source lines 528-537: for each account in
enumeration order, for each permission set in enumeration order. -/
def buildTasks (accounts permSets : List (String × String)) :
    List TaskUnit :=
  (accounts.map (fun a =>
    permSets.map (fun p => TaskUnit.mk a.1 a.2 p.1 p.2))).flatten

/-- One step of the grouping loop of source lines 605-611: append the
task's assignments to its account's entry, creating the entry at the end on
first sight of the account id. -/
def insertResult (m : List (String × List AdminAssignment)) (k : String)
    (v : List AdminAssignment) : List (String × List AdminAssignment) :=
  match m with
  | [] => [(k, v)]
  | (k', vs) :: rest =>
    if k' = k then (k', vs ++ v) :: rest
    else (k', vs) :: insertResult rest k v

/-- The `accountMap` of source lines 605-611, built over the task results
in task-array order. -/
def groupByAccount (trs : List (String × List AdminAssignment)) :
    List (String × List AdminAssignment) :=
  trs.foldl (fun m tr => insertResult m tr.1 tr.2) []

/-- The flattening of source lines 614-616: concatenate the grouped lists
in first-seen account order. -/
def aggregateRows (trs : List (String × List AdminAssignment)) :
    List AdminAssignment :=
  ((groupByAccount trs).map Prod.snd).flatten

theorem alookup_eq_none_iff {α : Type} (m : List (String × α)) (k : String) :
    alookup m k = none ↔ k ∉ m.map Prod.fst := by
  induction m with
  | nil => simp [alookup]
  | cons p rest ih =>
    obtain ⟨k', v⟩ := p
    by_cases hk : k = k' <;> simp [alookup, hk, ih]

theorem insertResult_not_mem (m : List (String × List AdminAssignment))
    (k : String) (v : List AdminAssignment) (h : alookup m k = none) :
    insertResult m k v = m ++ [(k, v)] := by
  induction m with
  | nil => rfl
  | cons p rest ih =>
    obtain ⟨k', vs⟩ := p
    rw [alookup] at h
    by_cases hk : k = k'
    · rw [if_pos hk] at h
      cases h
    · rw [if_neg hk] at h
      have hk' : ¬ k' = k := fun hh => hk hh.symm
      simp [insertResult, hk', ih h]

theorem insertResult_append_same (m : List (String × List AdminAssignment))
    (k : String) (acc v : List AdminAssignment)
    (h : alookup m k = none) :
    insertResult (m ++ [(k, acc)]) k v = m ++ [(k, acc ++ v)] := by
  induction m with
  | nil => simp [insertResult]
  | cons p rest ih =>
    obtain ⟨k', vs⟩ := p
    rw [alookup] at h
    by_cases hk : k = k'
    · rw [if_pos hk] at h
      cases h
    · rw [if_neg hk] at h
      have hk' : ¬ k' = k := fun hh => hk hh.symm
      simp [insertResult, hk', ih h]

theorem foldl_insert_block (k : String) :
    ∀ (block : List (String × List AdminAssignment))
      (m : List (String × List AdminAssignment))
      (acc : List AdminAssignment),
      (∀ x ∈ block, x.1 = k) → alookup m k = none →
      List.foldl (fun m' tr => insertResult m' tr.1 tr.2)
          (m ++ [(k, acc)]) block =
        m ++ [(k, acc ++ (block.map Prod.snd).flatten)] := by
  intro block
  induction block with
  | nil =>
    intro m acc _ _
    simp
  | cons tr rest ih =>
    intro m acc hkeys hnone
    obtain ⟨k', v⟩ := tr
    have hk' : k' = k := hkeys (k', v) (List.mem_cons_self _ _)
    subst hk'
    simp only [List.foldl_cons]
    rw [insertResult_append_same m k' acc v hnone]
    rw [ih m (acc ++ v) (fun x hx => hkeys x (List.mem_cons_of_mem _ hx))
      hnone]
    simp

theorem foldl_insert_blockE (k : String)
    (block m : List (String × List AdminAssignment))
    (hkeys : ∀ x ∈ block, x.1 = k) (hnone : alookup m k = none) :
    ((List.foldl (fun m' tr => insertResult m' tr.1 tr.2) m
        block).map Prod.snd).flatten =
      (m.map Prod.snd).flatten ++ (block.map Prod.snd).flatten ∧
    ∀ k' ∈ (List.foldl (fun m' tr => insertResult m' tr.1 tr.2) m
        block).map Prod.fst,
      k' ∈ m.map Prod.fst ∨ k' = k := by
  cases block with
  | nil =>
    constructor
    · simp
    · intro k' hk'
      exact Or.inl hk'
  | cons tr bs =>
    obtain ⟨k₁, v⟩ := tr
    have hk₁ : k₁ = k := hkeys (k₁, v) (List.mem_cons_self _ _)
    subst hk₁
    simp only [List.foldl_cons]
    rw [show insertResult m k₁ v = m ++ [(k₁, v)] from
      insertResult_not_mem m k₁ v hnone]
    rw [foldl_insert_block k₁ bs m v
      (fun x hx => hkeys x (List.mem_cons_of_mem _ hx)) hnone]
    constructor
    · simp
    · intro k' hk'
      simp only [List.map_append, List.mem_append, List.map_cons,
        List.mem_singleton, List.map_nil] at hk'
      rcases hk' with h | h
      · exact Or.inl h
      · exact Or.inr h

theorem groupFold_flatten (permSets : List (String × String))
    (results : TaskUnit → List AdminAssignment) :
    ∀ (accounts : List (String × String))
      (m : List (String × List AdminAssignment)),
      (accounts.map Prod.fst).Nodup →
      (∀ k ∈ m.map Prod.fst, k ∉ accounts.map Prod.fst) →
      ((List.foldl (fun m' tr => insertResult m' tr.1 tr.2) m
          ((buildTasks accounts permSets).map
            (fun t => (t.accountId, results t)))).map Prod.snd).flatten =
        (m.map Prod.snd).flatten ++
          (accounts.map (fun a =>
            (permSets.map
              (fun p => results
                (TaskUnit.mk a.1 a.2 p.1 p.2))).flatten)).flatten := by
  intro accounts
  induction accounts with
  | nil =>
    intro m _ _
    simp [buildTasks]
  | cons a rest ih =>
    intro m hnodup hdisj
    have hsplit : (buildTasks (a :: rest) permSets).map
        (fun t => (t.accountId, results t)) =
        (permSets.map (fun p =>
          (a.1, results (TaskUnit.mk a.1 a.2 p.1 p.2)))) ++
        ((buildTasks rest permSets).map
          (fun t => (t.accountId, results t))) := by
      simp only [buildTasks, List.map_cons, List.flatten_cons,
        List.map_append, List.map_map]
      rfl
    rw [hsplit, List.foldl_append]
    have hkeys : ∀ x ∈ permSets.map (fun p =>
        (a.1, results (TaskUnit.mk a.1 a.2 p.1 p.2))), x.1 = a.1 := by
      intro x hx
      simp only [List.mem_map] at hx
      obtain ⟨p, _, rfl⟩ := hx
      rfl
    have hmem_a : a.1 ∈ (a :: rest).map Prod.fst := by simp
    have hnone : alookup m a.1 = none :=
      (alookup_eq_none_iff m a.1).2 (fun hmem => hdisj a.1 hmem hmem_a)
    obtain ⟨hflat, hkeys2⟩ := foldl_insert_blockE a.1
      (permSets.map (fun p => (a.1, results (TaskUnit.mk a.1 a.2 p.1 p.2))))
      m hkeys hnone
    have hnodup_cons : (a.1 :: rest.map Prod.fst).Nodup := by
      simpa using hnodup
    have ha_not : a.1 ∉ rest.map Prod.fst :=
      (List.nodup_cons.mp hnodup_cons).1
    have hnodup' : (rest.map Prod.fst).Nodup :=
      (List.nodup_cons.mp hnodup_cons).2
    have hdisj' : ∀ k ∈ (List.foldl (fun m' tr => insertResult m' tr.1 tr.2)
        m (permSets.map (fun p =>
          (a.1, results (TaskUnit.mk a.1 a.2 p.1 p.2))))).map Prod.fst,
        k ∉ rest.map Prod.fst := by
      intro k hk
      rcases hkeys2 k hk with hin | heq
      · intro hkrest
        exact hdisj k hin (by simp [hkrest])
      · rw [heq]
        exact ha_not
    rw [ih _ hnodup' hdisj', hflat]
    simp only [List.map_cons, List.flatten_cons, List.map_map]
    rw [List.append_assoc]
    rfl

/-- Claim C10: when account ids are unique (they are keys of a `Map`),
collecting the per-task row lists in task-array order — the order
`Promise.all` returns regardless of completion interleaving — and grouping
them by first-seen account id produces exactly the concatenation of rows by
account in account enumeration order, within each account in permission-set
enumeration order, and within each work unit in production order. -/
theorem C10_aggregation_deterministic
    (accounts permSets : List (String × String))
    (results : TaskUnit → List AdminAssignment)
    (hnodup : (accounts.map Prod.fst).Nodup) :
    aggregateRows ((buildTasks accounts permSets).map
        (fun t => (t.accountId, results t))) =
      (accounts.map (fun a =>
        (permSets.map
          (fun p => results (TaskUnit.mk a.1 a.2 p.1 p.2))).flatten)).flatten
    := by
  have h := groupFold_flatten permSets results accounts [] hnodup (by simp)
  simpa [aggregateRows, groupByAccount] using h

def resultsC10 : TaskUnit → List AdminAssignment :=
  fun t =>
    [⟨t.accountId, t.accountName, "alice", t.permissionSetName, "USER",
      none⟩]

theorem C10_aggregation_deterministic_witness :
    aggregateRows ((buildTasks [("a1", "Acct1"), ("a2", "Acct2")]
        [("p1", "PS1")]).map (fun t => (t.accountId, resultsC10 t))) =
      ([("a1", "Acct1"), ("a2", "Acct2")].map (fun a =>
        (([("p1", "PS1")].map (fun p => resultsC10
          (TaskUnit.mk a.1 a.2 p.1 p.2))).flatten))).flatten :=
  C10_aggregation_deterministic [("a1", "Acct1"), ("a2", "Acct2")]
    [("p1", "PS1")] resultsC10 (by decide)
